import Mathlib

/-!
Shallow embedding of the ValMonBot monitoring engine (src/bot.py).

The engine is modelled as pure functions over explicit state:
* `check_node_health` — the NodeProbe (bot.py `check_node_health`);
* `health_check_and_monitor` — one full monitor tick, including the
  failover arbiter and the duty trackers (bot.py `health_check_and_monitor`
  and `run_validator_checks`);
* `check_confirmed_proposals`, `check_upcoming_proposals`,
  `check_validator_status`, `check_sync_duties`, `get_block_rewards` —
  the individual duty trackers.

All remote I/O is abstracted into environment records (`NodeEnv`,
`TickEnv`): each field holds the parsed response the corresponding
remote call would return on this tick, with `Option`/dedicated
constructors for transport errors and HTTP 404 outcomes, mirroring how
the Python code catches exceptions at each call site.  Python dicts are
embedded as association lists that keep insertion order, matching
CPython dict semantics (update in place keeps the position, new keys
append, deletion removes).  Monetary amounts are embedded as exact
rationals (`ℚ`); Python ints are `Int`, with `Int.ediv` / `Int.emod`
for Python's floor division and modulo (all divisors here are
positive, where the two agree).
-/

namespace ValMonBot

/-- The status codes produced by `check_node_health`, plus the initial
`unknown` sentinel stored in `node_health_state` before the first probe. -/
inductive StatusCode where
  | healthy
  | not_configured
  | cl_unreachable
  | cl_syncing
  | el_unreachable
  | cl_el_mismatch
  | unknown
  deriving DecidableEq, Repr

/-- The dict returned by `check_node_health`:
`{'is_healthy': ..., 'status': ...}` (the optional `sync_distance` field
is display-only and omitted). -/
structure NodeHealth where
  is_healthy : Bool
  status : StatusCode
  deriving DecidableEq, Repr

/-- The remote responses one `check_node_health` call can observe,
one field per request the Python function issues:
* `configured` — whether both URLs are non-empty (`if not beacon_url or not execution_url`);
* `syncing` — the `/eth/v1/node/syncing` call: `none` is any transport
  error, `some b` is the parsed `is_syncing` value (a response missing
  the key defaults to `True` in the code, folded into `some true`);
* `clHash` — the beacon head-block call: `none` is a transport/parse
  error, `some h` the execution-payload block hash;
* `elHash` — the `eth_getBlockByNumber` call on the execution node. -/
structure NodeEnv where
  configured : Bool
  syncing : Option Bool
  clHash : Option String
  elHash : Option String
  deriving DecidableEq, Repr

/-- bot.py `check_node_health`: the probe's short-circuiting check ladder. -/
def check_node_health (env : NodeEnv) : NodeHealth :=
  if !env.configured then ⟨false, .not_configured⟩
  else
    match env.syncing with
    | none => ⟨false, .cl_unreachable⟩
    | some true => ⟨false, .cl_syncing⟩
    | some false =>
      match env.clHash with
      | none => ⟨false, .cl_unreachable⟩
      | some clh =>
        match env.elHash with
        | none => ⟨false, .el_unreachable⟩
        | some elh =>
          if clh ≠ elh then ⟨false, .cl_el_mismatch⟩
          else ⟨true, .healthy⟩

/-- `node_health_state = {'primary': 'unknown', 'fallback': 'unknown'}`. -/
structure FailoverState where
  primary : StatusCode
  fallback : StatusCode
  deriving DecidableEq, Repr

/-- One value of the `sync_duty_state` dict:
`{'end_epoch': ..., 'notified_initial': ..., 'notified_upcoming': ..., 'notified_end': ...}`. -/
structure SyncDuty where
  end_epoch : Int
  notified_initial : Bool
  notified_upcoming : Bool
  notified_end : Bool
  deriving DecidableEq, Repr

/-- Association lists standing in for Python dicts.  `alookup` returns the
value at the first matching key (dicts have unique keys, so at most one). -/
def alookup {α β : Type} [DecidableEq α] : List (α × β) → α → Option β
  | [], _ => none
  | (k, v) :: t, k' => if k' = k then some v else alookup t k'

/-- `d[k] = v` on a Python dict: updating an existing key keeps its
position, a new key is appended at the end. -/
def aset {α β : Type} [DecidableEq α] : List (α × β) → α → β → List (α × β)
  | [], k, v => [(k, v)]
  | (k', v') :: t, k, v => if k = k' then (k, v) :: t else (k', v') :: aset t k v

/-- The notifications the engine sends (`send_telegram_message` call sites),
represented structurally by the data interpolated into the message text.
`syncUpcoming` additionally records the `startEpoch` of the duty it was
fired for (recoverable in the real message from the validator index and
`epochs_until_start` relative to the tick's epoch), so that notifications
are attributable to one duty key. -/
inductive Notif where
  | primaryRecovered (status : StatusCode)
  | primaryUnhealthy (status : StatusCode)
  | fallbackRecovered (status : StatusCode)
  | fallbackUnhealthy (status : StatusCode)
  | missedProposal (validatorIndex : String) (slot : Int)
  | confirmedProposal (validatorIndex : String) (slot : Int) (rewardsEth : ℚ)
      (feeRecipient : Option String) (graffiti : String)
  | upcomingProposal (validatorIndex : String) (slot : Int)
  | validatorOffline (validatorIndex : String) (status : String)
  | syncAssigned (validatorIndex : String) (startEpoch endEpoch : Int)
  | syncUpcoming (validatorIndex : String) (startEpoch epochsUntilStart : Int)
  | syncEnded (validatorIndex : String) (startEpoch : Int)
  deriving DecidableEq, Repr

/-- Outcome of the `GET /eth/v2/beacon/blocks/{slot}` call made while
resolving a pending proposal:
* `notFound` — HTTP 404 (missed proposal);
* `err` — any other transport/parse failure (the `except` branch);
* `found` — a parsed block: `fee_recipient` (`none` when the key is
  absent from the payload), `block_number`, and the decoded graffiti
  (`none` when extracting/decoding the graffiti raises, which aborts the
  confirmation message but not the removal). -/
inductive BlockResp where
  | notFound
  | err
  | found (fee_recipient : Option String) (block_number : Int) (graffiti : Option String)
  deriving DecidableEq, Repr

/-- Outcome of the `GET /eth/v1/validator/duties/sync/{epoch}` call:
`notFound404` (period too far ahead) and `err` both leave the store
untouched; `ok` carries the duty validator indices. -/
inductive SyncQuery where
  | notFound404
  | err
  | ok (duties : List String)
  deriving DecidableEq, Repr

/-- The four process-wide stores of bot.py (`validator_last_status`,
`pending_proposals`, `sync_duty_state`, `node_health_state`).
`pending_proposals` keys are `str(slot)` in Python, always produced by
`str` of an int, so they are embedded as the ints themselves. -/
structure BotState where
  validator_last_status : List (String × String)
  pending_proposals : List (Int × String)
  sync_duty_state : List ((String × Int) × SyncDuty)
  node_health_state : FailoverState
  deriving DecidableEq, Repr

/-- All remote responses one monitor tick can observe. `slotResp` is the
head-slot query (`get_current_slot_and_epoch`); `blockResp`,
`balanceBefore`, `balanceAfter` serve proposal resolution;
`proposerDuties` is the proposer-duties list (`none` on error);
`validatorResp` the batched validator-status list (`none` on error);
`syncQuery` the sync-committee duties call. -/
structure TickEnv where
  primaryEnv : NodeEnv
  fallbackEnv : NodeEnv
  slotResp : Option Int
  blockResp : BlockResp
  balanceBefore : Option Int
  balanceAfter : Option Int
  proposerDuties : Option (List (Int × String))
  validatorResp : Option (List (String × String))
  syncQuery : SyncQuery
  deriving DecidableEq, Repr

/-- bot.py `get_block_rewards`: two `eth_getBalance` calls; any failure
falls into the `except` branch and returns `0.0`.  `reward_wei / 1e18`
is embedded as exact division in `ℚ`. -/
def get_block_rewards (balanceBefore balanceAfter : Option Int) : ℚ :=
  match balanceBefore, balanceAfter with
  | some before, some after_ => ((after_ : ℚ) - (before : ℚ)) / (10 ^ 18 : ℚ)
  | _, _ => 0

/-- Resolution of one pending proposal inside `check_confirmed_proposals`
(the body of the `try` block for an entry whose slot matched). -/
def resolveProposal (slot : Int) (validator_index : String) (block : BlockResp)
    (balanceBefore balanceAfter : Option Int) : List Notif :=
  match block with
  | .notFound => [.missedProposal validator_index slot]
  | .err => []
  | .found fee_recipient block_number graffiti =>
    let rewards_eth : ℚ :=
      match fee_recipient with
      | some fr => if fr ≠ "" ∧ block_number > 0
                   then get_block_rewards balanceBefore balanceAfter else 0
      | none => 0
    match graffiti with
    | none => []
    | some g => [.confirmedProposal validator_index slot rewards_eth fee_recipient g]

/-- bot.py `check_confirmed_proposals`: every entry whose slot equals
`current_slot - 1` is marked for removal, then resolved; removal happens
regardless of the resolution outcome. -/
def check_confirmed_proposals (current_slot : Int) (block : BlockResp)
    (balanceBefore balanceAfter : Option Int) (pending : List (Int × String)) :
    List (Int × String) × List Notif :=
  let notifs := pending.foldl
    (fun acc p =>
      if p.1 = current_slot - 1
      then acc ++ resolveProposal p.1 p.2 block balanceBefore balanceAfter
      else acc) []
  (pending.filter (fun p => p.1 ≠ current_slot - 1), notifs)

/-- bot.py `check_upcoming_proposals`: insert every monitored duty whose
slot is not already pending, notifying for each insertion; a transport
error leaves the store untouched. -/
def check_upcoming_proposals (monitored : List String)
    (duties : Option (List (Int × String))) (pending : List (Int × String)) :
    List (Int × String) × List Notif :=
  match duties with
  | none => (pending, [])
  | some ds =>
    ds.foldl
      (fun acc d =>
        if d.2 ∈ monitored ∧ alookup acc.1 d.1 = none
        then (acc.1 ++ [(d.1, d.2)], acc.2 ++ [.upcomingProposal d.2 d.1])
        else acc)
      (pending, [])

/-- Python's `needle in hay` substring test, on exploded strings. -/
def listStartsWith : List Char → List Char → Bool
  | [], _ => true
  | _ :: _, [] => false
  | a :: as, b :: bs => a = b && listStartsWith as bs

/-- Substring containment scan behind `strContains`. -/
def listContainsSub (needle : List Char) : List Char → Bool
  | [] => needle.isEmpty
  | c :: t => listStartsWith needle (c :: t) || listContainsSub needle t

/-- `needle in hay` for Python strings. -/
def strContains (hay needle : String) : Bool :=
  listContainsSub needle.toList hay.toList

/-- Loop body of `check_validator_status` for one `(index, status)`
entry of the batched response: alert on the active→non-active edge
(previous status defaulting to "active"), then unconditionally
overwrite the stored status. -/
def statusStep (acc : List (String × String) × List Notif) (info : String × String) :
    List (String × String) × List Notif :=
  let prev := (alookup acc.1 info.1).getD "active"
  let alerts :=
    if ¬ strContains info.2 "active" ∧ strContains prev "active"
    then acc.2 ++ [.validatorOffline info.1 info.2] else acc.2
  (aset acc.1 info.1 info.2, alerts)

/-- bot.py `check_validator_status`: one batched status query, then the
per-validator edge-trigger loop. -/
def check_validator_status (validatorResp : Option (List (String × String)))
    (last : List (String × String)) :
    List (String × String) × List Notif :=
  match validatorResp with
  | none => (last, [])
  | some infos => infos.foldl statusStep (last, [])

def EPOCHS_PER_SYNC_COMMITTEE_PERIOD : Int := 256
def UPCOMING_NOTIFICATION_EPOCH_THRESHOLD : Int := 15

abbrev SyncState := List ((String × Int) × SyncDuty)

/-- One iteration of the duty-insertion loop of `check_sync_duties`:
insert a new all-false duty for a monitored validator if its key is not
already tracked. -/
def syncCreateStep (monitored : List String) (next_period_start_epoch : Int)
    (acc : SyncState) (index : String) : SyncState :=
  if index ∈ monitored ∧ alookup acc (index, next_period_start_epoch) = none
  then acc ++ [((index, next_period_start_epoch),
    ⟨next_period_start_epoch + EPOCHS_PER_SYNC_COMMITTEE_PERIOD,
      false, false, false⟩)]
  else acc

/-- Phase 1 of `check_sync_duties`: if no tracked duty targets the next
period start, query sync duties for it and insert the monitored ones. -/
def syncDutyCreate (monitored : List String) (current_epoch : Int)
    (q : SyncQuery) (s : SyncState) : SyncState :=
  let next_period_start_epoch :=
    (Int.ediv current_epoch EPOCHS_PER_SYNC_COMMITTEE_PERIOD + 1) *
      EPOCHS_PER_SYNC_COMMITTEE_PERIOD
  if s.any (fun e => e.1.2 = next_period_start_epoch) then s
  else
    match q with
    | .notFound404 => s
    | .err => s
    | .ok duties =>
      duties.foldl (syncCreateStep monitored next_period_start_epoch) s

/-- Phase 2 of `check_sync_duties`, one duty: the three one-shot
notification steps of the per-duty loop body.  Returns the duty record
as mutated by the loop body together with the notifications it sent;
the caller deletes the entry when `notified_end` ends up set, exactly
as the trailing `if state['notified_end']: del ...` does. -/
def syncDutyStep (current_epoch : Int) (key : String × Int) (st0 : SyncDuty) :
    SyncDuty × List Notif :=
  let epochs_until_start := key.2 - current_epoch
  let st1 := if !st0.notified_initial
    then { st0 with notified_initial := true } else st0
  let n1 : List Notif := if !st0.notified_initial
    then [Notif.syncAssigned key.1 key.2 st0.end_epoch] else []
  let fire_up := !st1.notified_upcoming && decide (0 < epochs_until_start) &&
    decide (epochs_until_start ≤ UPCOMING_NOTIFICATION_EPOCH_THRESHOLD)
  let st2 := if fire_up then { st1 with notified_upcoming := true } else st1
  let n2 := if fire_up then n1 ++ [Notif.syncUpcoming key.1 key.2 epochs_until_start] else n1
  let fire_end := !st2.notified_end && decide (current_epoch > st2.end_epoch)
  let st3 := if fire_end then { st2 with notified_end := true } else st2
  let n3 := if fire_end then n2 ++ [Notif.syncEnded key.1 key.2] else n2
  (st3, n3)

/-- One iteration of the per-duty loop of `check_sync_duties`: run the
notification steps, then keep or delete the entry according to its
`notified_end` flag (`if state['notified_end']: del ...`). -/
def syncFoldStep (current_epoch : Int) (acc : SyncState × List Notif)
    (e : (String × Int) × SyncDuty) : SyncState × List Notif :=
  let r := syncDutyStep current_epoch e.1 e.2
  (if r.1.notified_end then acc.1 else acc.1 ++ [(e.1, r.1)], acc.2 ++ r.2)

/-- bot.py `check_sync_duties`: duty creation for the next period, then
the per-duty notification pass over a snapshot of the store, deleting
every entry whose `notified_end` flag is set at the end of its loop body. -/
def check_sync_duties (monitored : List String) (current_epoch : Int)
    (q : SyncQuery) (s : SyncState) : SyncState × List Notif :=
  let s1 := syncDutyCreate monitored current_epoch q s
  s1.foldl (syncFoldStep current_epoch) ([], [])

/-- bot.py `run_validator_checks`: fetch the head slot (a `None` result
or slot `0` — both falsy in `if not current_slot` — skips the tick),
derive the epoch with floor division by 32, then run the trackers:
proposal resolution and upcoming-proposal recording every tick,
validator status when `slot % 5 == 0`, sync duties when
`slot % 32 == 0`. -/
def run_validator_checks (monitored : List String) (env : TickEnv)
    (s : BotState) : BotState × List Notif :=
  match env.slotResp with
  | none => (s, [])
  | some current_slot =>
    if current_slot = 0 then (s, [])
    else
      let current_epoch := Int.ediv current_slot 32
      let r1 := check_confirmed_proposals current_slot env.blockResp
        env.balanceBefore env.balanceAfter s.pending_proposals
      let r2 := check_upcoming_proposals monitored env.proposerDuties r1.1
      let r3 :=
        if Int.emod current_slot 5 = 0
        then check_validator_status env.validatorResp s.validator_last_status
        else (s.validator_last_status, [])
      let r4 :=
        if Int.emod current_slot 32 = 0
        then check_sync_duties monitored current_epoch env.syncQuery s.sync_duty_state
        else (s.sync_duty_state, [])
      ({ s with
          pending_proposals := r2.1
          validator_last_status := r3.1
          sync_duty_state := r4.1 },
       r1.2 ++ r2.2 ++ r3.2 ++ r4.2)

/-- bot.py `health_check_and_monitor`: probe the primary, notify and
store on a status transition; if the primary is healthy it is the active
pair and the fallback is not probed; otherwise probe the fallback, apply
the same transition rule, and use it if healthy; with no healthy pair
the validator checks are skipped. -/
def health_check_and_monitor (monitored : List String) (env : TickEnv)
    (s : BotState) : BotState × List Notif :=
  let primary_health := check_node_health env.primaryEnv
  let fs1 :=
    if primary_health.status ≠ s.node_health_state.primary
    then { s.node_health_state with primary := primary_health.status }
    else s.node_health_state
  let n1 : List Notif :=
    if primary_health.status ≠ s.node_health_state.primary
    then [if primary_health.is_healthy
          then Notif.primaryRecovered primary_health.status
          else Notif.primaryUnhealthy primary_health.status]
    else []
  if primary_health.is_healthy then
    let r := run_validator_checks monitored env
      { s with node_health_state := fs1 }
    (r.1, n1 ++ r.2)
  else
    let fallback_health := check_node_health env.fallbackEnv
    let fs2 :=
      if fallback_health.status ≠ fs1.fallback
      then { fs1 with fallback := fallback_health.status }
      else fs1
    let n2 : List Notif :=
      if fallback_health.status ≠ fs1.fallback
      then [if fallback_health.is_healthy
            then Notif.fallbackRecovered fallback_health.status
            else Notif.fallbackUnhealthy fallback_health.status]
      else []
    if fallback_health.is_healthy then
      let r := run_validator_checks monitored env
        { s with node_health_state := fs2 }
      (r.1, n1 ++ n2 ++ r.2)
    else
      ({ s with node_health_state := fs2 }, n1 ++ n2)

/-- Is this one of the health-transition notifications of the arbiter,
about the primary slot? -/
def isPrimaryHealthNotif : Notif → Bool
  | .primaryRecovered _ => true
  | .primaryUnhealthy _ => true
  | _ => false

/-- Is this one of the health-transition notifications of the arbiter,
about the fallback slot? -/
def isFallbackHealthNotif : Notif → Bool
  | .fallbackRecovered _ => true
  | .fallbackUnhealthy _ => true
  | _ => false

/-- Any health-transition notification of the arbiter. -/
def isHealthNotif (n : Notif) : Bool :=
  isPrimaryHealthNotif n || isFallbackHealthNotif n

/-- Does this notification concern the pending proposal at `slot`
(either outcome of its resolution)? -/
def mentionsSlot (slot : Int) : Notif → Bool
  | .missedProposal _ s => s = slot
  | .confirmedProposal _ s _ _ _ => s = slot
  | _ => false

/-- Does this notification concern the upcoming proposal at `slot`? -/
def mentionsUpcomingSlot (slot : Int) : Notif → Bool
  | .upcomingProposal _ s => s = slot
  | _ => false

/-- Is this an offline alert for validator `idx`? -/
def isOfflineFor (idx : String) : Notif → Bool
  | .validatorOffline i _ => i = idx
  | _ => false

/-- The three one-shot notification kinds of a sync duty. -/
inductive SyncKind where
  | initial
  | upcoming
  | ended
  deriving DecidableEq, Repr

/-- The flag of a duty record corresponding to a notification kind. -/
def flagGet : SyncKind → SyncDuty → Bool
  | .initial, d => d.notified_initial
  | .upcoming, d => d.notified_upcoming
  | .ended, d => d.notified_end

/-- Is this notification the `kind` notification of the duty keyed `k`? -/
def notifMatches : SyncKind → String × Int → Notif → Bool
  | .initial, k, .syncAssigned idx se _ => idx = k.1 && se = k.2
  | .upcoming, k, .syncUpcoming idx se _ => idx = k.1 && se = k.2
  | .ended, k, .syncEnded idx se => idx = k.1 && se = k.2
  | _, _, _ => false

/-- A sequence of `check_sync_duties` runs (the store is touched by
nothing else between tracker invocations — single-writer tick loop),
with the notifications of all runs concatenated. -/
def syncRuns (monitored : List String) : List (Int × SyncQuery) → SyncState →
    SyncState × List Notif
  | [], s => (s, [])
  | r :: rs, s =>
    let one := check_sync_duties monitored r.1 r.2 s
    let rest := syncRuns monitored rs one.1
    (rest.1, one.2 ++ rest.2)

/-- The duty keyed `k` exists at the start of every run of the sequence
(its lifetime spans the whole sequence). -/
def aliveThroughout (monitored : List String) (k : String × Int) :
    List (Int × SyncQuery) → SyncState → Bool
  | [], s => (alookup s k).isSome
  | r :: rs, s => (alookup s k).isSome &&
      aliveThroughout monitored k rs (check_sync_duties monitored r.1 r.2 s).1

/-! ## Association-list lemmas -/

theorem alookup_aset_self {α β : Type} [DecidableEq α] (m : List (α × β)) (k : α) (v : β) :
    alookup (aset m k v) k = some v := by
  induction m with
  | nil => simp [aset, alookup]
  | cons e t ih =>
    by_cases h : k = e.1
    · simp [aset, alookup, h]
    · simp [aset, alookup, h, Ne.symm h, ih]

theorem alookup_aset_ne {α β : Type} [DecidableEq α] (m : List (α × β)) (k k' : α) (v : β)
    (h : k' ≠ k) : alookup (aset m k v) k' = alookup m k' := by
  induction m with
  | nil => simp [aset, alookup, h]
  | cons e t ih =>
    by_cases hk : k = e.1
    · subst hk
      simp [aset, alookup, h]
    · by_cases hk' : k' = e.1
      · simp [aset, alookup, hk, hk']
      · simp [aset, alookup, hk, hk', ih]

theorem alookup_filter_of_none {α β : Type} [DecidableEq α] (m : List (α × β))
    (q : α × β → Bool) (k : α) (h : alookup m k = none) :
    alookup (m.filter q) k = none := by
  induction m with
  | nil => simp [alookup]
  | cons e t ih =>
    by_cases hk : k = e.1
    · simp [alookup, hk] at h
    · simp only [alookup, if_neg hk] at h
      by_cases hq : q e
      · simp [List.filter, hq, alookup, hk, ih h]
      · simp [List.filter, hq, ih h]

theorem alookup_eq_none_iff {α β : Type} [DecidableEq α] (m : List (α × β)) (k : α) :
    alookup m k = none ↔ ∀ e ∈ m, e.1 ≠ k := by
  induction m with
  | nil => simp [alookup]
  | cons e t ih =>
    by_cases hk : k = e.1
    · subst hk
      simp [alookup]
    · simp only [alookup, if_neg hk, ih, List.mem_cons]
      constructor
      · rintro h p (rfl | hp)
        · exact fun hpk => hk hpk.symm
        · exact h p hp
      · intro h p hp
        exact h p (Or.inr hp)

theorem filter_key_eq_single {β : Type} (l : List (Int × β)) (S : Int) (v : β)
    (hmem : (S, v) ∈ l) (hnd : (l.map Prod.fst).Nodup) :
    l.filter (fun p => decide (p.1 = S)) = [(S, v)] := by
  induction l with
  | nil => cases hmem
  | cons e t ih =>
    simp only [List.map_cons, List.nodup_cons] at hnd
    rcases List.mem_cons.mp hmem with h | h
    · subst h
      have ht : List.filter (fun p => decide (p.1 = S)) t = [] := by
        rw [List.filter_eq_nil_iff]
        intro p hp
        simp only [decide_eq_true_eq]
        intro hps
        have hmem' : p.1 ∈ t.map Prod.fst := List.mem_map_of_mem Prod.fst hp
        rw [hps] at hmem'
        exact hnd.1 hmem'
      simp [List.filter_cons, ht]
    · have he : ¬(e.1 = S) := by
        intro hes
        have hmem' : (S, v).1 ∈ t.map Prod.fst := List.mem_map_of_mem Prod.fst h
        rw [← hes] at hmem'
        exact hnd.1 hmem'
      simp only [List.filter_cons, he, decide_eq_true_eq, if_neg]
      exact ih h hnd.2

/-! ## Proposal-resolution lemmas -/

theorem check_confirmed_foldl_eq (c : Int) (b : BlockResp) (bb ba : Option Int)
    (l : List (Int × String)) (init : List Notif) :
    l.foldl
      (fun acc p =>
        if p.1 = c - 1 then acc ++ resolveProposal p.1 p.2 b bb ba else acc) init
      = init ++
        ((l.filter (fun p => decide (p.1 = c - 1))).map
          (fun p => resolveProposal p.1 p.2 b bb ba)).flatten := by
  induction l generalizing init with
  | nil => simp
  | cons e t ih =>
    by_cases hc : e.1 = c - 1
    · rw [List.foldl_cons, if_pos hc, ih, List.filter_cons_of_pos (by simp [hc]),
        List.map_cons, List.flatten_cons, List.append_assoc]
    · rw [List.foldl_cons, if_neg hc, ih, List.filter_cons_of_neg (by simp [hc])]

theorem check_confirmed_notifs (c : Int) (b : BlockResp) (bb ba : Option Int)
    (pending : List (Int × String)) :
    (check_confirmed_proposals c b bb ba pending).2
      = ((pending.filter (fun p => decide (p.1 = c - 1))).map
          (fun p => resolveProposal p.1 p.2 b bb ba)).flatten := by
  unfold check_confirmed_proposals
  exact check_confirmed_foldl_eq c b bb ba pending []

theorem check_confirmed_store (c : Int) (b : BlockResp) (bb ba : Option Int)
    (pending : List (Int × String)) :
    (check_confirmed_proposals c b bb ba pending).1
      = pending.filter (fun p => decide ¬(p.1 = c - 1)) := by
  rfl

/-- Every notification produced by resolving the proposal at `slot`
mentions exactly `slot`. -/
theorem resolveProposal_mentions (slot : Int) (idx : String) (b : BlockResp)
    (bb ba : Option Int) (S : Int) (n : Notif)
    (hn : n ∈ resolveProposal slot idx b bb ba) :
    mentionsSlot S n = decide (slot = S) := by
  cases b with
  | notFound =>
    simp only [resolveProposal, List.mem_singleton] at hn
    subst hn
    simp [mentionsSlot]
  | err => simp [resolveProposal] at hn
  | found fr bn g =>
    cases g with
    | none => simp [resolveProposal] at hn
    | some g =>
      simp only [resolveProposal, List.mem_singleton] at hn
      subst hn
      simp [mentionsSlot]

/-- C2: a pending proposal for slot `S` is resolved exactly once, at the
invocation with `currentSlot = S + 1` — the notifications of that
invocation are exactly one resolution of the entry, whatever the
resolution outcome (`notFound`, transport error, or a found block) —
the entry is removed from the store by that invocation, and once absent
it stays absent under every further resolver invocation. -/
theorem C2_pending_resolved_once_and_removed
    (pending : List (Int × String)) (S : Int) (idx : String)
    (b : BlockResp) (bb ba : Option Int)
    (hmem : (S, idx) ∈ pending) (hnd : (pending.map Prod.fst).Nodup) :
    (check_confirmed_proposals (S + 1) b bb ba pending).2
        = resolveProposal S idx b bb ba
    ∧ alookup (check_confirmed_proposals (S + 1) b bb ba pending).1 S = none
    ∧ ∀ (p' : List (Int × String)) (c : Int) (b' : BlockResp) (bb' ba' : Option Int),
        alookup p' S = none →
        alookup (check_confirmed_proposals c b' bb' ba' p').1 S = none := by
  have h1 : S + 1 - 1 = S := by omega
  refine ⟨?_, ?_, ?_⟩
  · rw [check_confirmed_notifs]
    simp only [h1]
    rw [filter_key_eq_single pending S idx hmem hnd]
    simp
  · rw [check_confirmed_store]
    rw [alookup_eq_none_iff]
    intro e he
    rcases List.mem_filter.mp he with ⟨_, hcond⟩
    simp only [h1, decide_eq_true_eq] at hcond
    exact hcond
  · intro p' c b' bb' ba' habs
    rw [check_confirmed_store]
    exact alookup_filter_of_none p' _ S habs

/-- C2 witness: a concrete pending proposal at slot 5, resolver invoked
with currentSlot 6 on a not-found block: the output is exactly one
missed-proposal notification, the entry is gone, and a later invocation
(currentSlot 9) of a store without slot 5 still lacks slot 5. -/
theorem C2_pending_resolved_once_and_removed_witness :
    (check_confirmed_proposals 6 BlockResp.notFound none none [(5, "v")]).2
        = [Notif.missedProposal "v" 5]
    ∧ alookup (check_confirmed_proposals 6 BlockResp.notFound none none [(5, "v")]).1 5 = none
    ∧ alookup (check_confirmed_proposals 9 BlockResp.err none none [(7, "w")]).1 5 = none := by
  have h := C2_pending_resolved_once_and_removed [(5, "v")] 5 "v"
    BlockResp.notFound none none (by decide) (by decide)
  exact ⟨h.1, h.2.1, h.2.2 [(7, "w")] 9 BlockResp.err none none (by decide)⟩

/-- C3 counterexample: a pending proposal at slot 5 with the resolver
invoked at currentSlot 8 (which has passed slot 5 by three) is neither
resolved nor removed: the store is unchanged and no notification is
sent, contradicting the claim that it is still resolved and removed. -/
theorem C3_counterexample :
    check_confirmed_proposals 8 BlockResp.notFound none none [(5, "v")]
      = ([(5, "v")], []) := by decide

/-- C3 amended: if the resolver is next invoked with
`currentSlot > S + 1`, the pending proposal for slot `S` is NOT resolved
at that invocation: it remains in the store and no notification about
slot `S` is emitted (resolution happens only when `currentSlot = S + 1`
exactly). -/
theorem C3_amended_skipped_slot_not_resolved
    (pending : List (Int × String)) (S c : Int) (idx : String)
    (b : BlockResp) (bb ba : Option Int)
    (hmem : (S, idx) ∈ pending) (hc : S + 1 < c) :
    (S, idx) ∈ (check_confirmed_proposals c b bb ba pending).1
    ∧ (check_confirmed_proposals c b bb ba pending).2.countP (mentionsSlot S) = 0 := by
  have hS : ¬((S : Int) = c - 1) := by omega
  constructor
  · rw [check_confirmed_store]
    exact List.mem_filter.mpr ⟨hmem, by simpa using hS⟩
  · rw [check_confirmed_notifs, List.countP_eq_zero]
    intro n hn
    rcases List.mem_flatten.mp hn with ⟨l, hl, hnl⟩
    rcases List.mem_map.mp hl with ⟨p, hp, rfl⟩
    rcases List.mem_filter.mp hp with ⟨_, hcond⟩
    simp only [decide_eq_true_eq] at hcond
    rw [resolveProposal_mentions p.1 p.2 b bb ba S n hnl]
    simp only [hcond, decide_eq_true_eq]
    omega

/-- C3 amended witness: slot 5 pending, resolver invoked at
currentSlot 8: the entry is still pending and no notification about
slot 5 is produced. -/
theorem C3_amended_skipped_slot_not_resolved_witness :
    (5, "v") ∈ (check_confirmed_proposals 8 BlockResp.notFound none none [(5, "v")]).1
    ∧ (check_confirmed_proposals 8 BlockResp.notFound none none
        [(5, "v")]).2.countP (mentionsSlot 5) = 0 :=
  C3_amended_skipped_slot_not_resolved [(5, "v")] 5 8 "v"
    BlockResp.notFound none none (by decide) (by decide)

/-- C7: resolving a confirmed proposal whose block has fee recipient
`fr` and block number `bn` reports the reward
`balance(fr, bn) - balance(fr, bn - 1)` divided by `10 ^ 18` (the two
`eth_getBalance` results are `before` and `after_`), and on the spec's
concrete example — before `10 ^ 18`, after `1.05 * 10 ^ 18` base
units — the reported reward is `0.05`. -/
theorem C7_reward_is_balance_delta (before after_ bn S : Int)
    (idx fr g : String) (hfr : fr ≠ "") (hbn : 0 < bn) :
    check_confirmed_proposals (S + 1) (BlockResp.found (some fr) bn (some g))
        (some before) (some after_) [(S, idx)]
      = ([], [Notif.confirmedProposal idx S
          (((after_ : ℚ) - (before : ℚ)) / (10 ^ 18 : ℚ)) (some fr) g])
    ∧ get_block_rewards (some (10 ^ 18)) (some (105 * 10 ^ 16)) = 1 / 20 := by
  constructor
  · have h1 : S + 1 - 1 = S := by omega
    simp [check_confirmed_proposals, h1, resolveProposal, hfr, hbn, get_block_rewards]
  · norm_num [get_block_rewards]

/-- C7 witness: concrete instantiation — balances 3 and 10 around block
number 1, slot 4: the confirmed notification reports `(10 - 3) / 10^18`,
and the spec's example evaluates to `1 / 20 = 0.05`. -/
theorem C7_reward_is_balance_delta_witness :
    check_confirmed_proposals 5 (BlockResp.found (some "0xfee") 1 (some "hi"))
        (some 3) (some 10) [(4, "v")]
      = ([], [Notif.confirmedProposal "v" 4 (((10 : ℚ) - (3 : ℚ)) / (10 ^ 18 : ℚ))
          (some "0xfee") "hi"])
    ∧ get_block_rewards (some (10 ^ 18)) (some (105 * 10 ^ 16)) = 1 / 20 :=
  C7_reward_is_balance_delta 3 10 1 4 "v" "0xfee" "hi" (by decide) (by decide)

/-- C10: when either `eth_getBalance` call fails, `get_block_rewards`
returns `0` instead of propagating the failure, and the confirmed
notification is still sent, reporting a reward of `0`. -/
theorem C10_balance_failure_reports_zero_reward
    (bb ba : Option Int) (h : bb = none ∨ ba = none)
    (S bn : Int) (idx fr g : String) :
    get_block_rewards bb ba = 0
    ∧ check_confirmed_proposals (S + 1) (BlockResp.found (some fr) bn (some g))
        bb ba [(S, idx)]
      = ([], [Notif.confirmedProposal idx S 0 (some fr) g]) := by
  have hz : get_block_rewards bb ba = 0 := by
    rcases h with rfl | rfl
    · cases ba <;> rfl
    · cases bb <;> rfl
  have h1 : S + 1 - 1 = S := by omega
  refine ⟨hz, ?_⟩
  simp [check_confirmed_proposals, h1, resolveProposal, hz]

/-- C10 witness: the first balance call fails (`none`): reward `0`, and
the confirmed notification is sent with reward `0`. -/
theorem C10_balance_failure_reports_zero_reward_witness :
    get_block_rewards none (some 7) = 0
    ∧ check_confirmed_proposals 5 (BlockResp.found (some "0xfee") 1 (some "hi"))
        none (some 7) [(4, "v")]
      = ([], [Notif.confirmedProposal "v" 4 0 (some "0xfee") "hi"]) :=
  C10_balance_failure_reports_zero_reward none (some 7) (Or.inl rfl) 4 1 "v" "0xfee" "hi"

/-! ## Duty-tracker notifications are never health-transition notifications -/

theorem foldl_pair_notifs {α σ : Type} (P : Notif → Prop)
    (f : (σ × List Notif) → α → (σ × List Notif))
    (hf : ∀ acc a n, n ∈ (f acc a).2 → n ∈ acc.2 ∨ P n)
    (l : List α) :
    ∀ acc, (∀ n ∈ acc.2, P n) → ∀ n ∈ (l.foldl f acc).2, P n := by
  induction l with
  | nil => exact fun acc h => h
  | cons a t ih =>
    intro acc hacc
    refine ih (f acc a) ?_
    intro n hn
    rcases hf acc a n hn with h | h
    · exact hacc n h
    · exact h

theorem resolveProposal_not_health (slot : Int) (idx : String) (b : BlockResp)
    (bb ba : Option Int) (n : Notif) (hn : n ∈ resolveProposal slot idx b bb ba) :
    isHealthNotif n = false := by
  cases b with
  | notFound =>
    simp only [resolveProposal, List.mem_singleton] at hn
    subst hn; rfl
  | err => simp [resolveProposal] at hn
  | found fr bn g =>
    cases g with
    | none => simp [resolveProposal] at hn
    | some g =>
      simp only [resolveProposal, List.mem_singleton] at hn
      subst hn; rfl

theorem check_confirmed_not_health (c : Int) (b : BlockResp) (bb ba : Option Int)
    (pending : List (Int × String)) (n : Notif)
    (hn : n ∈ (check_confirmed_proposals c b bb ba pending).2) :
    isHealthNotif n = false := by
  rw [check_confirmed_notifs] at hn
  rcases List.mem_flatten.mp hn with ⟨l, hl, hnl⟩
  rcases List.mem_map.mp hl with ⟨p, _, rfl⟩
  exact resolveProposal_not_health p.1 p.2 b bb ba n hnl

theorem check_upcoming_not_health (monitored : List String)
    (duties : Option (List (Int × String))) (pending : List (Int × String))
    (n : Notif) (hn : n ∈ (check_upcoming_proposals monitored duties pending).2) :
    isHealthNotif n = false := by
  cases duties with
  | none => simp [check_upcoming_proposals] at hn
  | some ds =>
    revert n
    refine foldl_pair_notifs (fun n => isHealthNotif n = false) _ ?_ ds (pending, [])
      (by intro n hn; simp at hn)
    intro acc a n hn
    by_cases hcond : a.2 ∈ monitored ∧ alookup acc.1 a.1 = none
    · simp only [if_pos hcond, List.mem_append, List.mem_singleton] at hn
      rcases hn with h | h
      · exact Or.inl h
      · subst h; exact Or.inr rfl
    · simp only [if_neg hcond] at hn
      exact Or.inl hn

theorem check_validator_status_not_health (resp : Option (List (String × String)))
    (last : List (String × String)) (n : Notif)
    (hn : n ∈ (check_validator_status resp last).2) :
    isHealthNotif n = false := by
  cases resp with
  | none => simp [check_validator_status] at hn
  | some infos =>
    revert n
    refine foldl_pair_notifs (fun n => isHealthNotif n = false) _ ?_ infos (last, [])
      (by intro n hn; simp at hn)
    intro acc a n hn
    unfold statusStep at hn
    dsimp only at hn
    by_cases hcond : ¬ strContains a.2 "active" ∧
        strContains ((alookup acc.1 a.1).getD "active") "active"
    · simp only [if_pos hcond, List.mem_append, List.mem_singleton] at hn
      rcases hn with h | h
      · exact Or.inl h
      · subst h; exact Or.inr rfl
    · simp only [if_neg hcond] at hn
      exact Or.inl hn

theorem syncDutyStep_not_health (e : Int) (k : String × Int) (st : SyncDuty)
    (n : Notif) (hn : n ∈ (syncDutyStep e k st).2) :
    isHealthNotif n = false := by
  unfold syncDutyStep at hn
  simp only at hn
  split_ifs at hn <;>
    simp only [List.mem_append, List.mem_singleton, List.not_mem_nil, or_false,
      false_or, or_assoc] at hn <;>
    first
      | exact hn.elim
      | (subst hn; rfl)
      | (rcases hn with rfl | rfl <;> rfl)
      | (rcases hn with rfl | rfl | rfl <;> rfl)

theorem check_sync_duties_not_health (monitored : List String) (e : Int)
    (q : SyncQuery) (s : SyncState) (n : Notif)
    (hn : n ∈ (check_sync_duties monitored e q s).2) :
    isHealthNotif n = false := by
  unfold check_sync_duties at hn
  revert n
  refine foldl_pair_notifs (fun n => isHealthNotif n = false) _ ?_
    (syncDutyCreate monitored e q s) ([], [])
    (by intro n hn; simp at hn)
  intro acc a n hn
  unfold syncFoldStep at hn
  dsimp only at hn
  simp only [List.mem_append] at hn
  rcases hn with h | h
  · exact Or.inl h
  · exact Or.inr (syncDutyStep_not_health e a.1 a.2 n h)

theorem run_validator_checks_not_health (monitored : List String) (env : TickEnv)
    (s : BotState) (n : Notif) (hn : n ∈ (run_validator_checks monitored env s).2) :
    isHealthNotif n = false := by
  unfold run_validator_checks at hn
  cases hslot : env.slotResp with
  | none => rw [hslot] at hn; simp at hn
  | some slot =>
    rw [hslot] at hn
    dsimp only at hn
    by_cases h0 : slot = 0
    · rw [if_pos h0] at hn; simp at hn
    · rw [if_neg h0] at hn
      simp only [List.mem_append] at hn
      rcases hn with ((h | h) | h) | h
      · exact check_confirmed_not_health _ _ _ _ _ n h
      · exact check_upcoming_not_health _ _ _ n h
      · by_cases h5 : Int.emod slot 5 = 0
        · rw [if_pos h5] at h
          exact check_validator_status_not_health _ _ n h
        · rw [if_neg h5] at h
          simp at h
      · by_cases h32 : Int.emod slot 32 = 0
        · rw [if_pos h32] at h
          exact check_sync_duties_not_health _ _ _ _ n h
        · rw [if_neg h32] at h
          simp at h

theorem run_validator_checks_countP_health (monitored : List String) (env : TickEnv)
    (s : BotState) (p : Notif → Bool) (hp : ∀ n, p n = true → isHealthNotif n = true) :
    (run_validator_checks monitored env s).2.countP p = 0 := by
  rw [List.countP_eq_zero]
  intro n hn hpn
  have := run_validator_checks_not_health monitored env s n hn
  rw [hp n hpn] at this
  cases this

theorem run_validator_checks_health_state (monitored : List String) (env : TickEnv)
    (s : BotState) :
    (run_validator_checks monitored env s).1.node_health_state = s.node_health_state := by
  unfold run_validator_checks
  cases env.slotResp with
  | none => rfl
  | some slot =>
    dsimp only
    by_cases h0 : slot = 0
    · rw [if_pos h0]
    · rw [if_neg h0]

/-- The validator checks never read the fallback probe environment:
substituting any fallback responses leaves them unchanged. -/
theorem run_validator_checks_fallback_irrelevant (monitored : List String)
    (env : TickEnv) (f : NodeEnv) (s : BotState) :
    run_validator_checks monitored { env with fallbackEnv := f } s
      = run_validator_checks monitored env s := rfl

/-- C9: on a tick where the primary probe reports healthy, the fallback
pair is not probed at all — the tick's entire outcome is unchanged under
arbitrary replacement of the fallback probe's responses — and the stored
fallback status is untouched. -/
theorem C9_primary_healthy_fallback_not_probed (monitored : List String)
    (env : TickEnv) (s : BotState) (f1 f2 : NodeEnv)
    (h : (check_node_health env.primaryEnv).is_healthy = true) :
    health_check_and_monitor monitored { env with fallbackEnv := f1 } s
      = health_check_and_monitor monitored { env with fallbackEnv := f2 } s
    ∧ (health_check_and_monitor monitored env s).1.node_health_state.fallback
      = s.node_health_state.fallback := by
  constructor
  · unfold health_check_and_monitor
    dsimp only
    simp only [h, if_true]
    rw [run_validator_checks_fallback_irrelevant monitored env f1,
      run_validator_checks_fallback_irrelevant monitored env f2]
  · unfold health_check_and_monitor
    dsimp only
    simp only [h, if_true]
    rw [run_validator_checks_health_state]
    by_cases hst : (check_node_health env.primaryEnv).status = s.node_health_state.primary
    · simp [hst]
    · simp [hst]

/-- C9 witness: a concrete healthy-primary tick; two entirely different
fallback environments yield the same tick outcome, and the stored
fallback status (here `unknown`) is unchanged. -/
theorem C9_primary_healthy_fallback_not_probed_witness :
    health_check_and_monitor []
        { primaryEnv := ⟨true, some false, some "0xaa", some "0xaa"⟩,
          fallbackEnv := ⟨false, none, none, none⟩,
          slotResp := none, blockResp := BlockResp.err,
          balanceBefore := none, balanceAfter := none,
          proposerDuties := none, validatorResp := none, syncQuery := SyncQuery.err }
        ⟨[], [], [], ⟨StatusCode.healthy, StatusCode.unknown⟩⟩
      = health_check_and_monitor []
        { primaryEnv := ⟨true, some false, some "0xaa", some "0xaa"⟩,
          fallbackEnv := ⟨true, some true, none, none⟩,
          slotResp := none, blockResp := BlockResp.err,
          balanceBefore := none, balanceAfter := none,
          proposerDuties := none, validatorResp := none, syncQuery := SyncQuery.err }
        ⟨[], [], [], ⟨StatusCode.healthy, StatusCode.unknown⟩⟩
    ∧ (health_check_and_monitor []
        { primaryEnv := ⟨true, some false, some "0xaa", some "0xaa"⟩,
          fallbackEnv := ⟨false, none, none, none⟩,
          slotResp := none, blockResp := BlockResp.err,
          balanceBefore := none, balanceAfter := none,
          proposerDuties := none, validatorResp := none, syncQuery := SyncQuery.err }
        ⟨[], [], [], ⟨StatusCode.healthy, StatusCode.unknown⟩⟩).1.node_health_state.fallback
      = StatusCode.unknown :=
  C9_primary_healthy_fallback_not_probed []
    { primaryEnv := ⟨true, some false, some "0xaa", some "0xaa"⟩,
      fallbackEnv := ⟨false, none, none, none⟩,
      slotResp := none, blockResp := BlockResp.err,
      balanceBefore := none, balanceAfter := none,
      proposerDuties := none, validatorResp := none, syncQuery := SyncQuery.err }
    ⟨[], [], [], ⟨StatusCode.healthy, StatusCode.unknown⟩⟩
    ⟨false, none, none, none⟩ ⟨true, some true, none, none⟩ (by decide)

/-- C8 counterexample: a tick on which both the primary and the fallback
probe report unhealthy, yet the FailoverState store — one of the four
state stores — is mutated by the tick (stored primary status goes
`healthy → cl_syncing`), contradicting the claim that none of the four
stores is mutated. -/
theorem C8_counterexample :
    (check_node_health ⟨true, some true, none, none⟩).is_healthy = false
    ∧ (check_node_health ⟨false, none, none, none⟩).is_healthy = false
    ∧ (health_check_and_monitor []
        { primaryEnv := ⟨true, some true, none, none⟩,
          fallbackEnv := ⟨false, none, none, none⟩,
          slotResp := none, blockResp := BlockResp.err,
          balanceBefore := none, balanceAfter := none,
          proposerDuties := none, validatorResp := none, syncQuery := SyncQuery.err }
        ⟨[], [], [], ⟨StatusCode.healthy, StatusCode.unknown⟩⟩).1.node_health_state
      ≠ ⟨StatusCode.healthy, StatusCode.unknown⟩ := by decide

/-- C8 amended: on a tick where both probes report unhealthy, no duty
tracker runs — the three duty stores (pending proposals, sync duties,
validator statuses) are unchanged and every notification sent is a
health-transition notification of the arbiter.  (The FailoverState
store, by contrast, is still updated by the transition rule and may
change on such a tick.) -/
theorem C8_amended_both_unhealthy_no_duty_effects (monitored : List String)
    (env : TickEnv) (s : BotState)
    (hp : (check_node_health env.primaryEnv).is_healthy = false)
    (hf : (check_node_health env.fallbackEnv).is_healthy = false) :
    (health_check_and_monitor monitored env s).1.pending_proposals = s.pending_proposals
    ∧ (health_check_and_monitor monitored env s).1.sync_duty_state = s.sync_duty_state
    ∧ (health_check_and_monitor monitored env s).1.validator_last_status
        = s.validator_last_status
    ∧ (health_check_and_monitor monitored env s).2.countP (fun n => !isHealthNotif n) = 0 := by
  unfold health_check_and_monitor
  dsimp only
  simp only [hp, hf, Bool.false_eq_true, if_false]
  by_cases hst1 : (check_node_health env.primaryEnv).status = s.node_health_state.primary <;>
    by_cases hst2 : (check_node_health env.fallbackEnv).status
        = (if (check_node_health env.primaryEnv).status ≠ s.node_health_state.primary
           then { s.node_health_state with primary := (check_node_health env.primaryEnv).status }
           else s.node_health_state).fallback <;>
    simp [hst1, hst2, isHealthNotif, isPrimaryHealthNotif, isFallbackHealthNotif]

/-- C8 amended witness: concrete both-unhealthy tick with non-empty duty
stores: the three duty stores come through unchanged and the only
notifications are the two health transitions. -/
theorem C8_amended_both_unhealthy_no_duty_effects_witness :
    (health_check_and_monitor []
        { primaryEnv := ⟨true, some true, none, none⟩,
          fallbackEnv := ⟨false, none, none, none⟩,
          slotResp := some 10, blockResp := BlockResp.err,
          balanceBefore := none, balanceAfter := none,
          proposerDuties := none, validatorResp := none, syncQuery := SyncQuery.err }
        ⟨[("1", "active_ongoing")], [(3, "v")], [(("v", 256), ⟨512, true, false, false⟩)],
          ⟨StatusCode.unknown, StatusCode.unknown⟩⟩).1.pending_proposals = [(3, "v")]
    ∧ (health_check_and_monitor []
        { primaryEnv := ⟨true, some true, none, none⟩,
          fallbackEnv := ⟨false, none, none, none⟩,
          slotResp := some 10, blockResp := BlockResp.err,
          balanceBefore := none, balanceAfter := none,
          proposerDuties := none, validatorResp := none, syncQuery := SyncQuery.err }
        ⟨[("1", "active_ongoing")], [(3, "v")], [(("v", 256), ⟨512, true, false, false⟩)],
          ⟨StatusCode.unknown, StatusCode.unknown⟩⟩).1.sync_duty_state
        = [(("v", 256), ⟨512, true, false, false⟩)]
    ∧ (health_check_and_monitor []
        { primaryEnv := ⟨true, some true, none, none⟩,
          fallbackEnv := ⟨false, none, none, none⟩,
          slotResp := some 10, blockResp := BlockResp.err,
          balanceBefore := none, balanceAfter := none,
          proposerDuties := none, validatorResp := none, syncQuery := SyncQuery.err }
        ⟨[("1", "active_ongoing")], [(3, "v")], [(("v", 256), ⟨512, true, false, false⟩)],
          ⟨StatusCode.unknown, StatusCode.unknown⟩⟩).1.validator_last_status
        = [("1", "active_ongoing")]
    ∧ (health_check_and_monitor []
        { primaryEnv := ⟨true, some true, none, none⟩,
          fallbackEnv := ⟨false, none, none, none⟩,
          slotResp := some 10, blockResp := BlockResp.err,
          balanceBefore := none, balanceAfter := none,
          proposerDuties := none, validatorResp := none, syncQuery := SyncQuery.err }
        ⟨[("1", "active_ongoing")], [(3, "v")], [(("v", 256), ⟨512, true, false, false⟩)],
          ⟨StatusCode.unknown, StatusCode.unknown⟩⟩).2.countP (fun n => !isHealthNotif n) = 0 :=
  C8_amended_both_unhealthy_no_duty_effects []
    { primaryEnv := ⟨true, some true, none, none⟩,
      fallbackEnv := ⟨false, none, none, none⟩,
      slotResp := some 10, blockResp := BlockResp.err,
      balanceBefore := none, balanceAfter := none,
      proposerDuties := none, validatorResp := none, syncQuery := SyncQuery.err }
    ⟨[("1", "active_ongoing")], [(3, "v")], [(("v", 256), ⟨512, true, false, false⟩)],
      ⟨StatusCode.unknown, StatusCode.unknown⟩⟩ (by decide) (by decide)

/-- C1: per tick, the arbiter emits a primary health-transition
notification iff the freshly probed primary status differs from the
stored one, and a fallback health-transition notification iff the
primary was unhealthy (so the fallback was probed) and the fresh
fallback status differs from the stored one; the stored statuses are
updated accordingly (the fallback slot keeps its old value on ticks
where it is not probed); the total number of health-transition
notifications of a tick is exactly one per slot that transitioned
(hence 0, 1, or 2). -/
theorem C1_arbiter_edge_triggered_notifications (monitored : List String)
    (env : TickEnv) (s : BotState) :
    ((health_check_and_monitor monitored env s).2.countP isPrimaryHealthNotif
       = if (check_node_health env.primaryEnv).status = s.node_health_state.primary
         then 0 else 1)
    ∧ (health_check_and_monitor monitored env s).1.node_health_state.primary
       = (check_node_health env.primaryEnv).status
    ∧ ((health_check_and_monitor monitored env s).2.countP isFallbackHealthNotif
       = if (check_node_health env.primaryEnv).is_healthy then 0
         else if (check_node_health env.fallbackEnv).status = s.node_health_state.fallback
         then 0 else 1)
    ∧ ((health_check_and_monitor monitored env s).1.node_health_state.fallback
       = if (check_node_health env.primaryEnv).is_healthy
         then s.node_health_state.fallback
         else (check_node_health env.fallbackEnv).status)
    ∧ ((health_check_and_monitor monitored env s).2.countP isHealthNotif
       = (if (check_node_health env.primaryEnv).status = s.node_health_state.primary
          then 0 else 1)
         + (if (check_node_health env.primaryEnv).is_healthy then 0
            else if (check_node_health env.fallbackEnv).status = s.node_health_state.fallback
            then 0 else 1)) := by
  have hcp : ∀ s', (run_validator_checks monitored env s').2.countP isPrimaryHealthNotif = 0 :=
    fun s' => run_validator_checks_countP_health monitored env s' _
      (by intro n hn; simp [isHealthNotif, hn])
  have hcf : ∀ s', (run_validator_checks monitored env s').2.countP isFallbackHealthNotif = 0 :=
    fun s' => run_validator_checks_countP_health monitored env s' _
      (by intro n hn; simp [isHealthNotif, hn])
  have hch : ∀ s', (run_validator_checks monitored env s').2.countP isHealthNotif = 0 :=
    fun s' => run_validator_checks_countP_health monitored env s' _ (fun _ h => h)
  unfold health_check_and_monitor
  dsimp only
  by_cases hh : (check_node_health env.primaryEnv).is_healthy = true
  · by_cases hst1 : (check_node_health env.primaryEnv).status = s.node_health_state.primary <;>
      simp [hh, hst1, run_validator_checks_health_state, hcp, hcf, hch,
        isPrimaryHealthNotif, isFallbackHealthNotif, isHealthNotif]
  · have hh' : (check_node_health env.primaryEnv).is_healthy = false :=
      Bool.eq_false_iff.mpr hh
    by_cases hfh : (check_node_health env.fallbackEnv).is_healthy = true <;>
      by_cases hst1 : (check_node_health env.primaryEnv).status = s.node_health_state.primary <;>
        by_cases hst2 : (check_node_health env.fallbackEnv).status
            = s.node_health_state.fallback <;>
          simp [hh', hfh, hst1, hst2, run_validator_checks_health_state, hcp, hcf, hch,
            isPrimaryHealthNotif, isFallbackHealthNotif, isHealthNotif]

/-! ## StatusTracker lemmas (C4) -/

theorem statusStep_lookup_ne (acc : List (String × String) × List Notif)
    (info : String × String) (idx : String) (h : info.1 ≠ idx) :
    alookup (statusStep acc info).1 idx = alookup acc.1 idx := by
  unfold statusStep
  exact alookup_aset_ne acc.1 info.1 idx info.2 (Ne.symm h)

theorem statusStep_countP_ne (acc : List (String × String) × List Notif)
    (info : String × String) (idx : String) (h : info.1 ≠ idx) :
    (statusStep acc info).2.countP (isOfflineFor idx)
      = acc.2.countP (isOfflineFor idx) := by
  unfold statusStep
  dsimp only
  split_ifs with hc
  · rw [List.countP_append]
    simp [isOfflineFor, h]
  · rfl

theorem status_fold_untracked (infos : List (String × String)) (idx : String) :
    ∀ acc : List (String × String) × List Notif, idx ∉ infos.map Prod.fst →
      alookup (infos.foldl statusStep acc).1 idx = alookup acc.1 idx
      ∧ (infos.foldl statusStep acc).2.countP (isOfflineFor idx)
        = acc.2.countP (isOfflineFor idx) := by
  induction infos with
  | nil => exact fun acc _ => ⟨rfl, rfl⟩
  | cons i t ih =>
    intro acc hidx
    simp only [List.map_cons, List.mem_cons, not_or] at hidx
    have hne : i.1 ≠ idx := fun he => hidx.1 he.symm
    have ht := ih (statusStep acc i) hidx.2
    rw [List.foldl_cons]
    refine ⟨?_, ?_⟩
    · rw [ht.1, statusStep_lookup_ne acc i idx hne]
    · rw [ht.2, statusStep_countP_ne acc i idx hne]

theorem status_fold_tracked (infos : List (String × String)) (idx st : String) :
    ∀ acc : List (String × String) × List Notif,
      (idx, st) ∈ infos → (infos.map Prod.fst).Nodup →
      alookup (infos.foldl statusStep acc).1 idx = some st
      ∧ (infos.foldl statusStep acc).2.countP (isOfflineFor idx)
        = acc.2.countP (isOfflineFor idx)
          + (if ¬ strContains st "active" ∧
               strContains ((alookup acc.1 idx).getD "active") "active"
             then 1 else 0) := by
  induction infos with
  | nil => intro acc h; cases h
  | cons i t ih =>
    intro acc hmem hnd
    simp only [List.map_cons, List.nodup_cons] at hnd
    rw [List.foldl_cons]
    rcases List.mem_cons.mp hmem with heq | hmem'
    · obtain rfl := heq.symm
      have hidx : idx ∉ t.map Prod.fst := hnd.1
      have hu := status_fold_untracked t idx (statusStep acc (idx, st)) hidx
      refine ⟨?_, ?_⟩
      · rw [hu.1]
        unfold statusStep
        exact alookup_aset_self acc.1 idx st
      · rw [hu.2]
        unfold statusStep
        dsimp only
        split_ifs with hc
        · rw [List.countP_append]
          simp [isOfflineFor]
        · simp
    · have hne : i.1 ≠ idx := by
        intro he
        exact hnd.1 (he ▸ (List.mem_map_of_mem Prod.fst hmem' : (idx, st).1 ∈ t.map Prod.fst))
      have ht := ih (statusStep acc i) hmem' hnd.2
      rw [statusStep_lookup_ne acc i idx hne, statusStep_countP_ne acc i idx hne] at ht
      exact ht

/-- C4: on every StatusTracker run whose batched response contains
`(idx, st)` (each index once), an offline alert for `idx` is emitted iff
the fresh status `st` does not contain "active" while the stored
previous status (defaulting to "active" when absent) contains "active";
the stored status is overwritten with `st` in every case; consequently a
validator that stays non-active does not re-alert on the next run. -/
theorem C4_validator_offline_edge_trigger (resp last : List (String × String))
    (idx st : String)
    (hmem : (idx, st) ∈ resp) (hnd : (resp.map Prod.fst).Nodup) :
    ((check_validator_status (some resp) last).2.countP (isOfflineFor idx)
       = if ¬ strContains st "active" ∧
            strContains ((alookup last idx).getD "active") "active"
         then 1 else 0)
    ∧ alookup (check_validator_status (some resp) last).1 idx = some st
    ∧ (∀ (resp' : List (String × String)) (st' : String),
        (idx, st') ∈ resp' → (resp'.map Prod.fst).Nodup →
        strContains st "active" = false →
        (check_validator_status (some resp')
            (check_validator_status (some resp) last).1).2.countP (isOfflineFor idx) = 0) := by
  have h := status_fold_tracked resp idx st (last, []) hmem hnd
  refine ⟨by simpa [check_validator_status] using h.2, h.1, ?_⟩
  intro resp' st' hmem' hnd' hst
  have hlook : alookup (check_validator_status (some resp) last).1 idx = some st := h.1
  have h2 := status_fold_tracked resp' idx st'
    ((check_validator_status (some resp) last).1, []) hmem' hnd'
  show (resp'.foldl statusStep _).2.countP (isOfflineFor idx) = 0
  rw [h2.2]
  dsimp only
  rw [hlook]
  simp [hst]

/-- C4 witness: validator "7" observed "exited_unslashed" with no stored
status (default "active"): exactly one offline alert, status stored;
a second run still reporting a non-active status ("exited_slashed")
produces no further alert. -/
theorem C4_validator_offline_edge_trigger_witness :
    ((check_validator_status (some [("7", "exited_unslashed")]) []).2.countP
        (isOfflineFor "7") = 1)
    ∧ alookup (check_validator_status (some [("7", "exited_unslashed")]) []).1 "7"
        = some "exited_unslashed"
    ∧ (check_validator_status (some [("7", "exited_slashed")])
        (check_validator_status (some [("7", "exited_unslashed")]) []).1).2.countP
        (isOfflineFor "7") = 0 := by
  have h := C4_validator_offline_edge_trigger [("7", "exited_unslashed")] [] "7"
    "exited_unslashed" (by decide) (by decide)
  refine ⟨by rw [h.1]; decide, h.2.1, ?_⟩
  exact h.2.2 [("7", "exited_slashed")] "exited_slashed" (by decide) (by decide) (by decide)

/-! ## SyncDutyTracker lemmas (C5, C6) -/

theorem syncDutyStep_end_epoch (e : Int) (k : String × Int) (st : SyncDuty) :
    (syncDutyStep e k st).1.end_epoch = st.end_epoch := by
  unfold syncDutyStep
  dsimp only
  split_ifs <;> rfl

theorem syncDutyStep_monotone (e : Int) (k : String × Int) (st : SyncDuty)
    (kind : SyncKind) :
    flagGet kind st ≤ flagGet kind (syncDutyStep e k st).1 := by
  cases kind <;>
    (unfold syncDutyStep
     dsimp only
     split_ifs <;> simp [flagGet])

theorem syncDutyStep_potential (e : Int) (k : String × Int) (st : SyncDuty)
    (kind : SyncKind) :
    (syncDutyStep e k st).2.countP (notifMatches kind k)
      + (if flagGet kind (syncDutyStep e k st).1 then 0 else 1)
      ≤ (if flagGet kind st then 0 else 1) := by
  cases kind <;>
    (unfold syncDutyStep
     dsimp only
     split_ifs with h1 h2 h3 <;>
       simp_all [flagGet, notifMatches, List.countP_append, List.countP_cons,
         List.countP_nil])

theorem syncDutyStep_countP_ne (e : Int) (k k' : String × Int) (st : SyncDuty)
    (kind : SyncKind) (hk : k' ≠ k) :
    (syncDutyStep e k st).2.countP (notifMatches kind k') = 0 := by
  have hk' : ¬(k.1 = k'.1 ∧ k.2 = k'.2) := by
    intro hc
    exact hk (Prod.ext hc.1.symm hc.2.symm)
  cases kind <;>
    (unfold syncDutyStep
     dsimp only
     split_ifs <;>
       simp_all [notifMatches, List.countP_append, List.countP_cons, List.countP_nil])

theorem syncDutyStep_upcoming_window (e : Int) (k : String × Int) (st : SyncDuty)
    (idx : String) (se u : Int)
    (h : Notif.syncUpcoming idx se u ∈ (syncDutyStep e k st).2) :
    0 < u ∧ u ≤ 15 := by
  unfold syncDutyStep at h
  dsimp only at h
  split_ifs at h with h1 h2 h3 <;>
    simp_all [UPCOMING_NOTIFICATION_EPOCH_THRESHOLD]

theorem syncDutyStep_ended_mem (e : Int) (k : String × Int) (st : SyncDuty)
    (idx : String) (se : Int)
    (h : Notif.syncEnded idx se ∈ (syncDutyStep e k st).2) :
    k = (idx, se) ∧ e > st.end_epoch := by
  unfold syncDutyStep at h
  dsimp only at h
  split_ifs at h with h1 h2 h3 <;> simp_all

theorem alookup_append_left {α β : Type} [DecidableEq α] (l l' : List (α × β))
    (k : α) (v : β) (h : alookup l k = some v) :
    alookup (l ++ l') k = some v := by
  induction l with
  | nil => simp [alookup] at h
  | cons e t ih =>
    by_cases hk : k = e.1
    · simp only [alookup, if_pos hk] at h
      simp [alookup, hk, h]
    · simp only [alookup, if_neg hk] at h
      simpa [alookup, hk] using ih h

theorem syncCreate_fold_lookup (monitored : List String) (next : Int)
    (duties : List String) (k : String × Int) (d : SyncDuty) :
    ∀ acc : SyncState, alookup acc k = some d →
      alookup (duties.foldl (syncCreateStep monitored next) acc) k = some d := by
  induction duties with
  | nil => exact fun acc h => h
  | cons i t ih =>
    intro acc h
    rw [List.foldl_cons]
    refine ih (syncCreateStep monitored next acc i) ?_
    unfold syncCreateStep
    split_ifs with hc
    · exact alookup_append_left acc _ k d h
    · exact h

theorem syncDutyCreate_lookup (monitored : List String) (e : Int) (q : SyncQuery)
    (s : SyncState) (k : String × Int) (d : SyncDuty) (h : alookup s k = some d) :
    alookup (syncDutyCreate monitored e q s) k = some d := by
  unfold syncDutyCreate
  dsimp only
  split_ifs with hs
  · exact h
  · cases q with
    | notFound404 => exact h
    | err => exact h
    | ok duties => exact syncCreate_fold_lookup monitored _ duties k d s h

theorem syncCreate_fold_nodup (monitored : List String) (next : Int)
    (duties : List String) :
    ∀ acc : SyncState, (acc.map Prod.fst).Nodup →
      ((duties.foldl (syncCreateStep monitored next) acc).map Prod.fst).Nodup := by
  induction duties with
  | nil => exact fun acc h => h
  | cons i t ih =>
    intro acc h
    rw [List.foldl_cons]
    refine ih (syncCreateStep monitored next acc i) ?_
    unfold syncCreateStep
    split_ifs with hc
    · rw [List.map_append]
      rw [List.nodup_append]
      refine ⟨h, List.nodup_singleton _, ?_⟩
      intro a ha hb
      simp only [List.map_cons, List.map_nil, List.mem_singleton] at hb
      subst hb
      rw [alookup_eq_none_iff] at hc
      rcases List.mem_map.mp ha with ⟨p, hp, hpa⟩
      exact hc.2 p hp hpa
    · exact h

theorem syncDutyCreate_nodup (monitored : List String) (e : Int) (q : SyncQuery)
    (s : SyncState) (h : (s.map Prod.fst).Nodup) :
    ((syncDutyCreate monitored e q s).map Prod.fst).Nodup := by
  unfold syncDutyCreate
  dsimp only
  split_ifs with hs
  · exact h
  · cases q with
    | notFound404 => exact h
    | err => exact h
    | ok duties => exact syncCreate_fold_nodup monitored _ duties s h

theorem alookup_append_right {α β : Type} [DecidableEq α] (l l' : List (α × β))
    (k : α) (h : alookup l k = none) :
    alookup (l ++ l') k = alookup l' k := by
  induction l with
  | nil => rfl
  | cons e t ih =>
    by_cases hk : k = e.1
    · simp [alookup, hk] at h
    · simp only [alookup, if_neg hk] at h
      simpa [alookup, hk] using ih h

theorem alookup_append_ne {α β : Type} [DecidableEq α] (l : List (α × β))
    (k k0 : α) (v : β) (h : k ≠ k0) :
    alookup (l ++ [(k0, v)]) k = alookup l k := by
  cases hl : alookup l k with
  | some w => exact alookup_append_left l _ k w hl
  | none =>
    rw [alookup_append_right l _ k hl]
    simp [alookup, h]

theorem sync_phase2_absent (e : Int) (kind : SyncKind) (k : String × Int) :
    ∀ (l : SyncState) (acc : SyncState × List Notif), (∀ en ∈ l, en.1 ≠ k) →
      alookup (l.foldl (syncFoldStep e) acc).1 k = alookup acc.1 k
      ∧ (l.foldl (syncFoldStep e) acc).2.countP (notifMatches kind k)
        = acc.2.countP (notifMatches kind k) := by
  intro l
  induction l with
  | nil => exact fun acc _ => ⟨rfl, rfl⟩
  | cons en t ih =>
    intro acc hne
    rw [List.foldl_cons]
    have hk : en.1 ≠ k := hne en (List.mem_cons_self en t)
    have ht := ih (syncFoldStep e acc en) (fun x hx => hne x (List.mem_cons_of_mem en hx))
    refine ⟨?_, ?_⟩
    · rw [ht.1]
      unfold syncFoldStep
      dsimp only
      split_ifs with hdel
      · rfl
      · exact alookup_append_ne acc.1 k en.1 _ (Ne.symm hk)
    · rw [ht.2]
      unfold syncFoldStep
      dsimp only
      rw [List.countP_append]
      rw [syncDutyStep_countP_ne e en.1 k en.2 kind (Ne.symm hk)]
      omega

theorem sync_phase2_key (e : Int) (kind : SyncKind) (k : String × Int) :
    ∀ (l : SyncState) (acc : SyncState × List Notif) (d : SyncDuty),
      alookup l k = some d → (l.map Prod.fst).Nodup → alookup acc.1 k = none →
      (alookup (l.foldl (syncFoldStep e) acc).1 k
         = if (syncDutyStep e k d).1.notified_end then none
           else some (syncDutyStep e k d).1)
      ∧ (l.foldl (syncFoldStep e) acc).2.countP (notifMatches kind k)
        = acc.2.countP (notifMatches kind k)
          + (syncDutyStep e k d).2.countP (notifMatches kind k) := by
  intro l
  induction l with
  | nil => intro acc d h; simp [alookup] at h
  | cons en t ih =>
    intro acc d h hnd hacc
    simp only [List.map_cons, List.nodup_cons] at hnd
    rw [List.foldl_cons]
    by_cases hk : k = en.1
    · simp only [alookup, if_pos hk] at h
      obtain rfl := Option.some.inj h
      subst hk
      have htne : ∀ x ∈ t, x.1 ≠ en.1 := by
        intro x hx he
        exact hnd.1 (he ▸ (List.mem_map_of_mem Prod.fst hx : x.1 ∈ t.map Prod.fst))
      have ht := sync_phase2_absent e kind en.1 t (syncFoldStep e acc en) htne
      refine ⟨?_, ?_⟩
      · rw [ht.1]
        unfold syncFoldStep
        dsimp only
        split_ifs with hdel
        · exact hacc
        · rw [alookup_append_right acc.1 _ en.1 hacc]
          simp [alookup]
      · rw [ht.2]
        unfold syncFoldStep
        dsimp only
        rw [List.countP_append]
    · simp only [alookup, if_neg hk] at h
      have hacc' : alookup (syncFoldStep e acc en).1 k = none := by
        unfold syncFoldStep
        dsimp only
        split_ifs with hdel
        · exact hacc
        · rw [alookup_append_ne acc.1 k en.1 _ hk]
          exact hacc
      have ht := ih (syncFoldStep e acc en) d h hnd.2 hacc'
      refine ⟨ht.1, ?_⟩
      rw [ht.2]
      unfold syncFoldStep
      dsimp only
      rw [List.countP_append]
      rw [syncDutyStep_countP_ne e en.1 k en.2 kind hk]
      omega

theorem sync_phase2_nodup (e : Int) :
    ∀ (l : SyncState) (acc : SyncState × List Notif),
      ((acc.1 ++ l).map Prod.fst).Nodup →
      ((l.foldl (syncFoldStep e) acc).1.map Prod.fst).Nodup := by
  intro l
  induction l with
  | nil =>
    intro acc h
    simpa using h
  | cons en t ih =>
    intro acc h
    rw [List.foldl_cons]
    apply ih
    unfold syncFoldStep
    dsimp only
    split_ifs with hdel
    · refine List.Nodup.sublist ?_ h
      apply List.Sublist.map
      exact (List.sublist_cons_self en t).append_left acc.1
    · have heq : ((acc.1 ++ [(en.1, (syncDutyStep e en.1 en.2).1)]) ++ t).map Prod.fst
          = (acc.1 ++ en :: t).map Prod.fst := by
        simp [List.append_assoc, List.singleton_append]
      rw [heq]
      exact h

theorem sync_phase2_end_false (e : Int) :
    ∀ (l : SyncState) (acc : SyncState × List Notif),
      (∀ p ∈ acc.1, p.2.notified_end = false) →
      ∀ p ∈ (l.foldl (syncFoldStep e) acc).1, p.2.notified_end = false := by
  intro l
  induction l with
  | nil => exact fun acc h => h
  | cons en t ih =>
    intro acc hacc
    rw [List.foldl_cons]
    apply ih
    unfold syncFoldStep
    dsimp only
    split_ifs with hdel
    · exact hacc
    · intro p hp
      rcases List.mem_append.mp hp with hpl | hpr
      · exact hacc p hpl
      · rcases List.mem_singleton.mp hpr with rfl
        exact Bool.eq_false_iff.mpr hdel

theorem check_sync_duties_key (monitored : List String) (e : Int) (q : SyncQuery)
    (s : SyncState) (k : String × Int) (d : SyncDuty) (kind : SyncKind)
    (hnd : (s.map Prod.fst).Nodup) (h : alookup s k = some d) :
    (alookup (check_sync_duties monitored e q s).1 k
       = if (syncDutyStep e k d).1.notified_end then none
         else some (syncDutyStep e k d).1)
    ∧ (check_sync_duties monitored e q s).2.countP (notifMatches kind k)
      = (syncDutyStep e k d).2.countP (notifMatches kind k) := by
  have h1 := syncDutyCreate_lookup monitored e q s k d h
  have hnd1 := syncDutyCreate_nodup monitored e q s hnd
  have hp := sync_phase2_key e kind k (syncDutyCreate monitored e q s)
    ([], []) d h1 hnd1 rfl
  exact ⟨hp.1, by simpa using hp.2⟩

theorem check_sync_duties_nodup (monitored : List String) (e : Int) (q : SyncQuery)
    (s : SyncState) (hnd : (s.map Prod.fst).Nodup) :
    ((check_sync_duties monitored e q s).1.map Prod.fst).Nodup := by
  have hnd1 := syncDutyCreate_nodup monitored e q s hnd
  exact sync_phase2_nodup e (syncDutyCreate monitored e q s) ([], []) (by simpa using hnd1)

theorem check_sync_duties_potential (monitored : List String) (e : Int) (q : SyncQuery)
    (s : SyncState) (k : String × Int) (d d' : SyncDuty) (kind : SyncKind)
    (hnd : (s.map Prod.fst).Nodup) (h : alookup s k = some d)
    (h' : alookup (check_sync_duties monitored e q s).1 k = some d') :
    ((check_sync_duties monitored e q s).2.countP (notifMatches kind k)
        + (if flagGet kind d' then 0 else 1) ≤ (if flagGet kind d then 0 else 1))
    ∧ flagGet kind d ≤ flagGet kind d' := by
  have hk := check_sync_duties_key monitored e q s k d kind hnd h
  rw [hk.1] at h'
  by_cases hend : (syncDutyStep e k d).1.notified_end = true
  · rw [if_pos hend] at h'
    cases h'
  · rw [if_neg hend] at h'
    obtain rfl := Option.some.inj h'
    rw [hk.2]
    exact ⟨syncDutyStep_potential e k d kind, syncDutyStep_monotone e k d kind⟩

theorem check_sync_duties_upcoming_window (monitored : List String) (e : Int)
    (q : SyncQuery) (s : SyncState) (idx : String) (se u : Int)
    (h : Notif.syncUpcoming idx se u ∈ (check_sync_duties monitored e q s).2) :
    0 < u ∧ u ≤ 15 := by
  have hall : ∀ n ∈ (check_sync_duties monitored e q s).2,
      (∀ i s' u', n = Notif.syncUpcoming i s' u' → 0 < u' ∧ u' ≤ 15) := by
    unfold check_sync_duties
    dsimp only
    refine foldl_pair_notifs _ _ ?_ (syncDutyCreate monitored e q s) ([], [])
      (by intro n hn; simp at hn)
    intro acc a n hn
    unfold syncFoldStep at hn
    dsimp only at hn
    rcases List.mem_append.mp hn with hl | hr
    · exact Or.inl hl
    · refine Or.inr ?_
      rintro i s' u' rfl
      exact syncDutyStep_upcoming_window e a.1 a.2 i s' u' hr
  exact hall _ h idx se u rfl

theorem aliveThroughout_isSome (monitored : List String) (k : String × Int) :
    ∀ (runs : List (Int × SyncQuery)) (s : SyncState),
      aliveThroughout monitored k runs s = true → (alookup s k).isSome = true
  | [], _, h => h
  | _ :: _, _, h => (Bool.and_eq_true _ _ |>.mp h).1

theorem aliveThroughout_tail (monitored : List String) (k : String × Int)
    (r : Int × SyncQuery) (rs : List (Int × SyncQuery)) (s : SyncState)
    (h : aliveThroughout monitored k (r :: rs) s = true) :
    aliveThroughout monitored k rs (check_sync_duties monitored r.1 r.2 s).1 = true :=
  (Bool.and_eq_true _ _ |>.mp h).2

theorem syncRuns_potential (monitored : List String) (kind : SyncKind) (k : String × Int) :
    ∀ (runs : List (Int × SyncQuery)) (s0 : SyncState) (d0 dF : SyncDuty),
      (s0.map Prod.fst).Nodup → aliveThroughout monitored k runs s0 = true →
      alookup s0 k = some d0 → alookup (syncRuns monitored runs s0).1 k = some dF →
      ((syncRuns monitored runs s0).2.countP (notifMatches kind k)
          + (if flagGet kind dF then 0 else 1) ≤ (if flagGet kind d0 then 0 else 1))
      ∧ flagGet kind d0 ≤ flagGet kind dF := by
  intro runs
  induction runs with
  | nil =>
    intro s0 d0 dF _ _ h0 hF
    unfold syncRuns at hF ⊢
    rw [h0] at hF
    obtain rfl := Option.some.inj hF
    exact ⟨by simp, le_refl _⟩
  | cons r rs ih =>
    intro s0 d0 dF hnd halive h0 hF
    have htail := aliveThroughout_tail monitored k r rs s0 halive
    have hnd1 := check_sync_duties_nodup monitored r.1 r.2 s0 hnd
    obtain ⟨d1, h1⟩ := Option.isSome_iff_exists.mp
      (aliveThroughout_isSome monitored k rs _ htail)
    have hone := check_sync_duties_potential monitored r.1 r.2 s0 k d0 d1 kind hnd h0 h1
    have hrest := ih (check_sync_duties monitored r.1 r.2 s0).1 d1 dF hnd1 htail h1
      (by
        unfold syncRuns at hF
        exact hF)
    constructor
    · show (_ ++ _ : List Notif).countP _ + _ ≤ _
      rw [List.countP_append]
      calc (check_sync_duties monitored r.1 r.2 s0).2.countP (notifMatches kind k)
            + (syncRuns monitored rs (check_sync_duties monitored r.1 r.2 s0).1).2.countP
                (notifMatches kind k)
            + (if flagGet kind dF then 0 else 1)
          = (check_sync_duties monitored r.1 r.2 s0).2.countP (notifMatches kind k)
            + ((syncRuns monitored rs (check_sync_duties monitored r.1 r.2 s0).1).2.countP
                (notifMatches kind k)
              + (if flagGet kind dF then 0 else 1)) := by omega
        _ ≤ (check_sync_duties monitored r.1 r.2 s0).2.countP (notifMatches kind k)
            + (if flagGet kind d1 then 0 else 1) := Nat.add_le_add_left hrest.1 _
        _ ≤ (if flagGet kind d0 then 0 else 1) := hone.1
    · exact le_trans hone.2 hrest.2

theorem check_sync_duties_countP_le_one (monitored : List String) (e : Int)
    (q : SyncQuery) (s : SyncState) (k : String × Int) (kind : SyncKind)
    (hnd : (s.map Prod.fst).Nodup) :
    (check_sync_duties monitored e q s).2.countP (notifMatches kind k) ≤ 1 := by
  have hnd1 := syncDutyCreate_nodup monitored e q s hnd
  cases h1 : alookup (syncDutyCreate monitored e q s) k with
  | some d =>
    have hp := sync_phase2_key e kind k (syncDutyCreate monitored e q s)
      ([], []) d h1 hnd1 rfl
    have hq : (check_sync_duties monitored e q s).2.countP (notifMatches kind k)
        = (syncDutyStep e k d).2.countP (notifMatches kind k) := by simpa using hp.2
    rw [hq]
    have hpot := syncDutyStep_potential e k d kind
    split_ifs at hpot <;> omega
  | none =>
    rw [alookup_eq_none_iff] at h1
    have hp := sync_phase2_absent e kind k (syncDutyCreate monitored e q s)
      ([], []) h1
    have hq : (check_sync_duties monitored e q s).2.countP (notifMatches kind k)
        = ([] : List Notif).countP (notifMatches kind k) := hp.2
    rw [hq]
    simp

theorem foldl_pair_notifs_mem {α σ : Type} (P : Notif → Prop)
    (f : (σ × List Notif) → α → (σ × List Notif)) :
    ∀ (l : List α), (∀ acc a, a ∈ l → ∀ n ∈ (f acc a).2, n ∈ acc.2 ∨ P n) →
      ∀ acc, (∀ n ∈ acc.2, P n) → ∀ n ∈ (l.foldl f acc).2, P n := by
  intro l
  induction l with
  | nil => exact fun _ acc h => h
  | cons a t ih =>
    intro hf acc hacc
    refine ih (fun acc' x hx => hf acc' x (List.mem_cons_of_mem a hx)) (f acc a) ?_
    intro n hn
    rcases hf acc a (List.mem_cons_self a t) n hn with h | h
    · exact hacc n h
    · exact h

/-- C5: over any sequence of tracker runs spanned by a duty's lifetime,
its notification flags are monotonic (false→true only, never reset),
each of the three notification kinds is emitted at most once — and not
at all when its flag was already set — a single run emits each kind at
most once for any key (covering the run that creates the duty), and the
"starts soon" notification fires only when
`0 < startEpoch - currentEpoch ≤ 15`. -/
theorem C5_sync_flags_monotone_and_one_shot (monitored : List String) (kind : SyncKind)
    (runs : List (Int × SyncQuery)) (s0 : SyncState) (k : String × Int)
    (d0 dF : SyncDuty) (e1 : Int) (q1 : SyncQuery) (s1 : SyncState)
    (k1 : String × Int) (e2 : Int) (q2 : SyncQuery) (s2 : SyncState)
    (idx : String) (se u : Int)
    (hnd : (s0.map Prod.fst).Nodup)
    (halive : aliveThroughout monitored k runs s0 = true)
    (h0 : alookup s0 k = some d0)
    (hF : alookup (syncRuns monitored runs s0).1 k = some dF)
    (hnd1 : (s1.map Prod.fst).Nodup)
    (hup : Notif.syncUpcoming idx se u ∈ (check_sync_duties monitored e2 q2 s2).2) :
    flagGet kind d0 ≤ flagGet kind dF
    ∧ (syncRuns monitored runs s0).2.countP (notifMatches kind k)
        ≤ (if flagGet kind d0 then 0 else 1)
    ∧ (check_sync_duties monitored e1 q1 s1).2.countP (notifMatches kind k1) ≤ 1
    ∧ 0 < u ∧ u ≤ 15 := by
  have hpot := syncRuns_potential monitored kind k runs s0 d0 dF hnd halive h0 hF
  have hone := check_sync_duties_countP_le_one monitored e1 q1 s1 k1 kind hnd1
  have hw := check_sync_duties_upcoming_window monitored e2 q2 s2 idx se u hup
  exact ⟨hpot.2, le_trans (Nat.le_add_right _ _) hpot.1, hone, hw.1, hw.2⟩

/-- C5 witness: a duty for validator "v" starting at epoch 1000 with
`notifiedInitial` already set survives a run at epoch 1 untouched — flag
still set, no `assigned` notification over the sequence; a fresh store
run emits at most one notification for any key; and the concrete
"starts soon" notification emitted at epoch 990 has
`epochsUntilStart = 10`, inside `(0, 15]`. -/
theorem C5_sync_flags_monotone_and_one_shot_witness :
    flagGet SyncKind.initial ⟨1256, true, false, false⟩
        ≤ flagGet SyncKind.initial ⟨1256, true, false, false⟩
    ∧ (syncRuns ["v"] [(1, SyncQuery.notFound404)]
          [(("v", 1000), ⟨1256, true, false, false⟩)]).2.countP
          (notifMatches SyncKind.initial ("v", 1000))
        ≤ (if flagGet SyncKind.initial (⟨1256, true, false, false⟩ : SyncDuty)
           then 0 else 1)
    ∧ (check_sync_duties ["v"] 1 SyncQuery.notFound404
          [(("v", 1000), ⟨1256, true, false, false⟩)]).2.countP
          (notifMatches SyncKind.initial ("v", 1000)) ≤ 1
    ∧ (0 : Int) < 10 ∧ (10 : Int) ≤ 15 :=
  C5_sync_flags_monotone_and_one_shot ["v"] SyncKind.initial
    [(1, SyncQuery.notFound404)] [(("v", 1000), ⟨1256, true, false, false⟩)]
    ("v", 1000) ⟨1256, true, false, false⟩ ⟨1256, true, false, false⟩
    1 SyncQuery.notFound404 [(("v", 1000), ⟨1256, true, false, false⟩)] ("v", 1000)
    990 SyncQuery.notFound404 [(("v", 1000), ⟨1256, true, false, false⟩)]
    "v" 1000 10
    (by decide) (by decide) (by decide) (by decide) (by decide) (by decide)

/-- C6 counterexample: a duty (startEpoch 0, endEpoch 256) processed at
currentEpoch 513: the run both sets `notifiedEnd` (emitting the "ended"
notification) and deletes the duty in the same invocation — the store
is empty immediately, not on the following tick as the claim states. -/
theorem C6_counterexample :
    (check_sync_duties ["v"] 513 SyncQuery.notFound404
        [(("v", 0), ⟨256, true, true, false⟩)]).1 = []
    ∧ (check_sync_duties ["v"] 513 SyncQuery.notFound404
        [(("v", 0), ⟨256, true, true, false⟩)]).2 = [Notif.syncEnded "v" 0] := by decide

/-- C6 amended: the "ended" notification fires only for a duty whose
`endEpoch` lies strictly below the current epoch, and a duty whose
`notifiedEnd` flag is set is deleted by the same invocation that set it
(eager deletion in the same loop body, not lazily on the following
tick); consequently no stored duty ever has `notifiedEnd` true. -/
theorem C6_amended_end_notification_and_eager_delete (monitored : List String)
    (e : Int) (q : SyncQuery) (s : SyncState) :
    (∀ idx se, Notif.syncEnded idx se ∈ (check_sync_duties monitored e q s).2 →
       ∃ d, ((idx, se), d) ∈ syncDutyCreate monitored e q s ∧ e > d.end_epoch)
    ∧ ∀ p ∈ (check_sync_duties monitored e q s).1,
        (p : (String × Int) × SyncDuty).2.notified_end = false := by
  constructor
  · have hall : ∀ n ∈ (check_sync_duties monitored e q s).2,
        (∀ idx se, n = Notif.syncEnded idx se →
          ∃ d, ((idx, se), d) ∈ syncDutyCreate monitored e q s ∧ e > d.end_epoch) := by
      unfold check_sync_duties
      dsimp only
      refine foldl_pair_notifs_mem _ _ (syncDutyCreate monitored e q s) ?_ ([], [])
        (by intro n hn; simp at hn)
      intro acc a ha n hn
      unfold syncFoldStep at hn
      dsimp only at hn
      rcases List.mem_append.mp hn with hl | hr
      · exact Or.inl hl
      · refine Or.inr ?_
        rintro idx se rfl
        have hm := syncDutyStep_ended_mem e a.1 a.2 idx se hr
        refine ⟨a.2, ?_, hm.2⟩
        rw [← hm.1]
        exact ha
    intro idx se hmem
    exact hall _ hmem idx se rfl
  · exact sync_phase2_end_false e (syncDutyCreate monitored e q s) ([], [])
      (by intro p hp; simp at hp)

end ValMonBot
